import Mathlib

/-!
Shallow embedding of the checkout and payment-reconciliation core of the
cozy-creations backend (src/index.js and the unnamed variants part_000,
part_001, part_002).  The document store is modelled as an association list
of product documents; each request handler becomes a pure function from
its request data and the store to a response, the resulting store, and the
list of order documents the call created.  The gateway HMAC is an abstract
parameter `hmacHex : String → String → String` (secret, message ↦ hex
digest), mirroring the source's use of crypto.createHmac("sha256", secret).
`Option Int` models a JS number that may be NaN (`none`), as produced by
parseInt on a non-numeric string.
-/

namespace Cozy

/-- JS addition where `none` models NaN (NaN propagates through +). -/
def jsAdd : Option Int → Option Int → Option Int
  | some a, some b => some (a + b)
  | _, _ => none

/-- JS multiplication where `none` models NaN. -/
def jsMul : Option Int → Option Int → Option Int
  | some a, some b => some (a * b)
  | _, _ => none

/-- JS subtraction where `none` models NaN. -/
def jsSub : Option Int → Option Int → Option Int
  | some a, some b => some (a - b)
  | _, _ => none

/-- A product document: name, unit price, active flag, optional tracked
stock (`none` means stock is not a number, i.e. untracked), and the
updatedAt timestamp (modelled as a natural-number clock). -/
structure Product where
  name : String
  price : Int
  isActive : Bool
  inventory : Option Int
  updatedAt : Nat
deriving DecidableEq

/-- The products collection: document id ↦ product document. -/
abbrev Store := List (String × Product)

/-- db.collection("products").doc(id).get() -/
def getProduct : Store → String → Option Product
  | [], _ => none
  | (i, p) :: rest, id => if i = id then some p else getProduct rest id

/-- db.collection("products").doc(id).update({inventory: v, updatedAt: serverTimestamp()}) -/
def setInventory (now : Nat) : Store → String → Int → Store
  | [], _, _ => []
  | (i, p) :: rest, id, v =>
    if i = id then (i, { p with inventory := some v, updatedAt := now }) :: rest
    else (i, p) :: setInventory now rest id v

theorem getProduct_setInventory (now : Nat) (s : Store) (id tid : String) (v : Int) :
    getProduct (setInventory now s id v) tid =
      if tid = id then
        (getProduct s id).map (fun p => { p with inventory := some v, updatedAt := now })
      else getProduct s tid := by
  induction s with
  | nil => simp [setInventory, getProduct]
  | cons kv rest ih =>
    obtain ⟨i, p⟩ := kv
    simp only [setInventory]
    by_cases hi : i = id
    · subst hi
      simp only [if_pos rfl, getProduct]
      by_cases ht : i = tid
      · subst ht
        simp [getProduct]
      · have ht2 : ¬ tid = i := fun h => ht h.symm
        simp [getProduct, ht, ht2]
    · simp only [if_neg hi, getProduct]
      by_cases ht : i = tid
      · subst ht
        have ht2 : ¬ i = id := hi
        simp [getProduct, ht2]
      · simp [getProduct, hi, ht, ih]

/-- Two stores that agree on the catalog fields (price, name, active flag)
of every product id; inventory and timestamps may differ.  Inventory
writes preserve this relation. -/
def samePrices (s t : Store) : Prop :=
  ∀ id : String,
    (getProduct t id).map Product.price = (getProduct s id).map Product.price ∧
    (getProduct t id).map Product.name = (getProduct s id).map Product.name ∧
    (getProduct t id).map Product.isActive = (getProduct s id).map Product.isActive

theorem samePrices_refl (s : Store) : samePrices s s := fun _ => ⟨rfl, rfl, rfl⟩

theorem samePrices_trans {s t u : Store} (h1 : samePrices s t) (h2 : samePrices t u) :
    samePrices s u := by
  intro id
  obtain ⟨a1, b1, c1⟩ := h1 id
  obtain ⟨a2, b2, c2⟩ := h2 id
  exact ⟨a2.trans a1, b2.trans b1, c2.trans c1⟩

theorem samePrices_setInventory (now : Nat) (s : Store) (id : String) (v : Int) :
    samePrices s (setInventory now s id v) := by
  intro tid
  rw [getProduct_setInventory]
  by_cases ht : tid = id
  · subst ht
    cases getProduct s tid <;> simp
  · simp [ht]

theorem samePrices_isSome {s t : Store} (h : samePrices s t) (id : String) :
    (getProduct t id).isSome = (getProduct s id).isSome := by
  have := (h id).1
  cases hs : getProduct s id <;> cases ht : getProduct t id <;>
    simp [hs, ht] at this ⊢

/-- Every tracked product in the store has non-negative stock. -/
def storeNonneg (s : Store) : Prop := ∀ kv ∈ s, 0 ≤ kv.2.inventory.getD 0

theorem storeNonneg_setInventory {s : Store} (h : storeNonneg s)
    (now : Nat) (id : String) {v : Int} (hv : 0 ≤ v) :
    storeNonneg (setInventory now s id v) := by
  induction s with
  | nil => simpa [setInventory] using h
  | cons kv rest ih =>
    obtain ⟨i, p⟩ := kv
    have hhead : 0 ≤ p.inventory.getD 0 := h (i, p) (List.mem_cons_self _ _)
    have hrest : storeNonneg rest := fun kv hkv => h kv (List.mem_cons_of_mem _ hkv)
    by_cases hi : i = id
    · intro kv hkv
      rcases List.mem_cons.mp (by simpa [setInventory, hi] using hkv) with h1 | h2
      · subst h1; simpa using hv
      · exact hrest _ h2
    · intro kv hkv
      rcases List.mem_cons.mp (by simpa [setInventory, hi] using hkv) with h1 | h2
      · subst h1; exact hhead
      · exact ih hrest _ h2

/-- A client-submitted cart entry (untrusted): product id, the result of
parseInt(item.quantity, 10) (`none` models NaN), optional customization.
No price field is carried: any client price is ignored by the handlers. -/
structure CartItem where
  productId : String
  quantity : Option Int
  customization : Option String
deriving DecidableEq

/-- A resolved line item built by the pricing validator, with the name and
unit price snapshotted from the product document and the parsed quantity. -/
structure VLine where
  productId : String
  name : String
  price : Int
  quantity : Int
  customization : Option String
deriving DecidableEq

/-- Validation errors of the pricing and availability loop. -/
inductive VErr where
  | productMissing (id : String)
  | productInactive (id : String)
  | invalidQuantity
  | insufficientInventory (productName : String)
deriving DecidableEq

/-- Result of the pricing validator: an error, or line items plus total. -/
inductive VRes where
  | err (e : VErr)
  | ok (lines : List VLine) (total : Int)
deriving DecidableEq

/-- typeof p.inventory === "number" && p.inventory < qty -/
def trackedBelow (inv : Option Int) (q : Int) : Bool :=
  match inv with
  | some n => decide (n < q)
  | none => false

/-- The pricing and availability loop of src/index.js, lines 140–159
(POST /api/orders) and lines 387–429 (POST /api/orders/create-payment):
for each cart entry, fetch the product, reject if missing, inactive,
quantity not a positive integer, or tracked stock below the quantity;
otherwise push a server-priced line item and add price × quantity to the
accumulated total.  (The /api/orders copy of the loop is identical except
that its pushed line items omit the customization field.) -/
def validateCartAux (s : Store) : List CartItem → List VLine → Int → VRes
  | [], acc, total => .ok acc total
  | it :: rest, acc, total =>
    match getProduct s it.productId with
    | none => .err (.productMissing it.productId)
    | some p =>
      if p.isActive = false then .err (.productInactive it.productId)
      else
        match it.quantity with
        | none => .err .invalidQuantity
        | some q =>
          if q ≤ 0 then .err .invalidQuantity
          else if trackedBelow p.inventory q then .err (.insufficientInventory p.name)
          else
            validateCartAux s rest
              (acc ++ [⟨it.productId, p.name, p.price, q, it.customization⟩])
              (total + p.price * q)

/-- The pricing validator as invoked with empty accumulators. -/
def validateCart (s : Store) (items : List CartItem) : VRes :=
  validateCartAux s items [] 0

/-- A cart entry passes all four checks of the validator against store s. -/
def itemOkB (s : Store) (it : CartItem) : Bool :=
  match getProduct s it.productId with
  | none => false
  | some p =>
    match it.quantity with
    | none => false
    | some q => p.isActive && decide (0 < q) && !(trackedBelow p.inventory q)

/-- The resolved line item the validator produces for a passing entry. -/
def resolveV (s : Store) (it : CartItem) : VLine :=
  { productId := it.productId
    name := ((getProduct s it.productId).map Product.name).getD ""
    price := ((getProduct s it.productId).map Product.price).getD 0
    quantity := it.quantity.getD 0
    customization := it.customization }

/-- Σ (current server-side unit price × parsed quantity) over a cart. -/
def cartSum (s : Store) (items : List CartItem) : Int :=
  (items.map (fun it =>
    ((getProduct s it.productId).map Product.price).getD 0 * it.quantity.getD 0)).sum

theorem validateCartAux_spec (s : Store) : ∀ (items : List CartItem)
    (acc : List VLine) (total : Int),
    ((∀ it ∈ items, itemOkB s it = true) →
      validateCartAux s items acc total =
        .ok (acc ++ items.map (resolveV s)) (total + cartSum s items)) ∧
    (∀ ls t, validateCartAux s items acc total = .ok ls t →
      ∀ it ∈ items, itemOkB s it = true) ∧
    (∀ id, validateCartAux s items acc total = .err (.productMissing id) →
      ∃ it ∈ items, it.productId = id ∧ getProduct s it.productId = none) ∧
    (∀ id, validateCartAux s items acc total = .err (.productInactive id) →
      ∃ it ∈ items, it.productId = id ∧
        ∃ p, getProduct s it.productId = some p ∧ p.isActive = false) ∧
    (validateCartAux s items acc total = .err .invalidQuantity →
      ∃ it ∈ items, ∀ q : Int, it.quantity = some q → q ≤ 0) ∧
    (∀ nm, validateCartAux s items acc total = .err (.insufficientInventory nm) →
      ∃ it ∈ items, ∃ p q inv, getProduct s it.productId = some p ∧ p.name = nm ∧
        it.quantity = some q ∧ p.inventory = some inv ∧ inv < q) := by
  intro items
  induction items with
  | nil =>
    intro acc total
    refine ⟨fun _ => ?_, ?_, ?_, ?_, ?_, ?_⟩ <;>
      simp [validateCartAux, cartSum]
  | cons it rest ih =>
    intro acc total
    by_cases hget : ∃ p, getProduct s it.productId = some p
    · obtain ⟨p, hp⟩ := hget
      by_cases hact : p.isActive = false
      · -- rejected: inactive
        refine ⟨?_, ?_, ?_, ?_, ?_, ?_⟩
        · intro hall
          have := hall it (List.mem_cons_self _ _)
          cases hq : it.quantity <;> simp [itemOkB, hp, hact, hq] at this
        · intro ls t h
          simp [validateCartAux, hp, hact] at h
        · intro id h
          simp [validateCartAux, hp, hact] at h
        · intro id h
          simp [validateCartAux, hp, hact] at h
          exact ⟨it, List.mem_cons_self _ _, h, p, hp, hact⟩
        · intro h
          simp [validateCartAux, hp, hact] at h
        · intro nm h
          simp [validateCartAux, hp, hact] at h
      · have hact2 : p.isActive = true := by
          cases h : p.isActive
          · exact absurd h hact
          · rfl
        cases hq : it.quantity with
        | none =>
          -- rejected: quantity does not parse
          refine ⟨?_, ?_, ?_, ?_, ?_, ?_⟩
          · intro hall
            have := hall it (List.mem_cons_self _ _)
            simp [itemOkB, hp, hq] at this
          · intro ls t h
            simp [validateCartAux, hp, hact, hq] at h
          · intro id h
            simp [validateCartAux, hp, hact, hq] at h
          · intro id h
            simp [validateCartAux, hp, hact, hq] at h
          · intro h
            exact ⟨it, List.mem_cons_self _ _, fun q hsome => by simp [hq] at hsome⟩
          · intro nm h
            simp [validateCartAux, hp, hact, hq] at h
        | some q =>
          by_cases hqpos : q ≤ 0
          · -- rejected: non-positive quantity
            refine ⟨?_, ?_, ?_, ?_, ?_, ?_⟩
            · intro hall
              have := hall it (List.mem_cons_self _ _)
              simp [itemOkB, hp, hq] at this
              obtain ⟨⟨-, h2⟩, -⟩ := this
              omega
            · intro ls t h
              simp [validateCartAux, hp, hact, hq, hqpos] at h
            · intro id h
              simp [validateCartAux, hp, hact, hq, hqpos] at h
            · intro id h
              simp [validateCartAux, hp, hact, hq, hqpos] at h
            · intro h
              exact ⟨it, List.mem_cons_self _ _,
                fun q2 hsome => by
                  rw [hq] at hsome
                  cases hsome
                  exact hqpos⟩
            · intro nm h
              simp [validateCartAux, hp, hact, hq, hqpos] at h
          · by_cases hstock : trackedBelow p.inventory q = true
            · -- rejected: tracked stock below quantity
              obtain ⟨inv, hinv, hlt⟩ : ∃ inv, p.inventory = some inv ∧ inv < q := by
                unfold trackedBelow at hstock
                cases hi : p.inventory with
                | none => rw [hi] at hstock; simp at hstock
                | some n =>
                  rw [hi] at hstock
                  exact ⟨n, rfl, by simpa using hstock⟩
              refine ⟨?_, ?_, ?_, ?_, ?_, ?_⟩
              · intro hall
                have := hall it (List.mem_cons_self _ _)
                simp [itemOkB, hp, hq, hstock] at this
              · intro ls t h
                simp [validateCartAux, hp, hact, hq, hqpos, hstock] at h
              · intro id h
                simp [validateCartAux, hp, hact, hq, hqpos, hstock] at h
              · intro id h
                simp [validateCartAux, hp, hact, hq, hqpos, hstock] at h
              · intro h
                simp [validateCartAux, hp, hact, hq, hqpos, hstock] at h
              · intro nm h
                simp [validateCartAux, hp, hact, hq, hqpos, hstock] at h
                exact ⟨it, List.mem_cons_self _ _, p, q, inv, hp,
                  h, hq, hinv, hlt⟩
            · -- entry passes: recurse
              have hstep : validateCartAux s (it :: rest) acc total =
                  validateCartAux s rest
                    (acc ++ [⟨it.productId, p.name, p.price, q, it.customization⟩])
                    (total + p.price * q) := by
                simp [validateCartAux, hp, hact, hq, hqpos, hstock]
              have hok : itemOkB s it = true := by
                simp [itemOkB, hp, hq, hact2, hstock]
                omega
              obtain ⟨i1, i2, i3, i4, i5, i6⟩ :=
                ih (acc ++ [⟨it.productId, p.name, p.price, q, it.customization⟩])
                  (total + p.price * q)
              have hres : resolveV s it =
                  ⟨it.productId, p.name, p.price, q, it.customization⟩ := by
                simp [resolveV, hp, hq]
              refine ⟨?_, ?_, ?_, ?_, ?_, ?_⟩
              · intro hall
                have hrest : ∀ x ∈ rest, itemOkB s x = true :=
                  fun x hx => hall x (List.mem_cons_of_mem _ hx)
                rw [hstep, i1 hrest]
                have hsum : cartSum s (it :: rest) = p.price * q + cartSum s rest := by
                  simp [cartSum, hp, hq]
                rw [hsum, List.map_cons, hres]
                have hl : acc ++
                    [(⟨it.productId, p.name, p.price, q, it.customization⟩ : VLine)] ++
                    List.map (resolveV s) rest =
                    acc ++ (⟨it.productId, p.name, p.price, q, it.customization⟩ ::
                      List.map (resolveV s) rest) := by
                  simp
                have ht : total + p.price * q + cartSum s rest =
                    total + (p.price * q + cartSum s rest) := by ring
                rw [hl, ht]
              · intro ls t h
                rw [hstep] at h
                intro x hx
                rcases List.mem_cons.mp hx with h1 | h2
                · subst h1; exact hok
                · exact i2 ls t h x h2
              · intro id h
                rw [hstep] at h
                obtain ⟨x, hx, hh⟩ := i3 id h
                exact ⟨x, List.mem_cons_of_mem _ hx, hh⟩
              · intro id h
                rw [hstep] at h
                obtain ⟨x, hx, hh⟩ := i4 id h
                exact ⟨x, List.mem_cons_of_mem _ hx, hh⟩
              · intro h
                rw [hstep] at h
                obtain ⟨x, hx, hh⟩ := i5 h
                exact ⟨x, List.mem_cons_of_mem _ hx, hh⟩
              · intro nm h
                rw [hstep] at h
                obtain ⟨x, hx, hh⟩ := i6 nm h
                exact ⟨x, List.mem_cons_of_mem _ hx, hh⟩
    · -- rejected: product missing
      have hp : getProduct s it.productId = none := by
        cases h : getProduct s it.productId
        · rfl
        · exact absurd ⟨_, h⟩ hget
      refine ⟨?_, ?_, ?_, ?_, ?_, ?_⟩
      · intro hall
        have := hall it (List.mem_cons_self _ _)
        simp [itemOkB, hp] at this
      · intro ls t h
        simp [validateCartAux, hp] at h
      · intro id h
        simp [validateCartAux, hp] at h
        exact ⟨it, List.mem_cons_self _ _, h, hp⟩
      · intro id h
        simp [validateCartAux, hp] at h
      · intro h
        simp [validateCartAux, hp] at h
      · intro nm h
        simp [validateCartAux, hp] at h

/-- Responses of POST /api/orders/create-payment (src/index.js 348–480). -/
inductive CPResp where
  | unauthorized
  | notConfigured
  | emptyCart
  | invalidTotal
  | vErr (e : VErr)
  | totalMismatch
  | razorpayError
  | ok (amount : Int) (key : String)
deriving DecidableEq

/-- Effect of a create-payment call: response, resulting product store and
the order documents the call created. -/
structure CPOut where
  resp : CPResp
  store : Store
  orders : List VLine
deriving DecidableEq

/-- POST /api/orders/create-payment of src/index.js: require auth and
configured gateway keys, reject empty carts and non-positive or
non-numeric declared totals, run the pricing validator, reject when the
recomputed total differs from the declared total by more than 1, then
create the gateway order for Math.round(total × 100) paise and return the
amount and public key.  The handler performs no database write.
(`orders` is the (always empty) list of order documents created; its
element type is irrelevant.) -/
def createPaymentResp (keysConfigured gatewayOk : Bool) (key : String) (s : Store)
    (uid : Option String) (items : List CartItem) (total : Option Int) : CPResp :=
  match uid with
  | none => .unauthorized
  | some _ =>
    if keysConfigured = false then .notConfigured
    else if items = [] then .emptyCart
    else
      match total with
      | none => .invalidTotal
      | some t =>
        if t ≤ 0 then .invalidTotal
        else
          match validateCart s items with
          | .err e => .vErr e
          | .ok _ ctot =>
            if 1 < (ctot - t).natAbs then .totalMismatch
            else if gatewayOk then .ok (t * 100) key
            else .razorpayError

/-- The full effect of a create-payment call: the handler contains no
database write on any path, so the store is returned unchanged and the
list of created orders is empty. -/
def createPayment (keysConfigured gatewayOk : Bool) (key : String) (s : Store)
    (uid : Option String) (items : List CartItem) (total : Option Int) : CPOut :=
  ⟨createPaymentResp keysConfigured gatewayOk key s uid items total, s, []⟩

/-- An order document persisted by POST /api/orders (src/index.js 126–200). -/
structure OCOrder where
  userId : Option String
  items : List VLine
  total : Int
  status : String
  stripePaymentIntentId : Option String
deriving DecidableEq

/-- Responses of POST /api/orders. -/
inductive OCResp where
  | emptyCart
  | vErr (e : VErr)
  | ok (clientSecret : Option String)
deriving DecidableEq

structure OCOut where
  resp : OCResp
  store : Store
  orders : List OCOrder
deriving DecidableEq

/-- POST /api/orders of src/index.js: reject an empty cart, run the
pricing validator, persist the order with the server-computed total and
status "pending", then (when Stripe is configured) attempt to create a
payment intent for the order; on intent success the persisted order is
updated with the intent id, on intent failure the order is kept as is. -/
def ordersCreate (stripeConfigured stripeOk : Bool) (intentId clientSecret : String)
    (s : Store) (uid : Option String) (items : List CartItem) : OCOut :=
  if items = [] then ⟨.emptyCart, s, []⟩
  else
    match validateCart s items with
    | .err e => ⟨.vErr e, s, []⟩
    | .ok lines total =>
      if stripeConfigured then
        if stripeOk then
          ⟨.ok (some clientSecret), s, [⟨uid, lines, total, "pending", some intentId⟩]⟩
        else ⟨.ok none, s, [⟨uid, lines, total, "pending", none⟩]⟩
      else ⟨.ok none, s, [⟨uid, lines, total, "pending", none⟩]⟩

/-- A cart entry of orderData.items as POST /api/orders/verify-payment of
src/index.js reads it: product id, parseInt result of the quantity
(`none` models NaN), customization. -/
structure IItem where
  productId : String
  quantity : Option Int
  customization : Option String
deriving DecidableEq

/-- A line item built by verify-payment of src/index.js; the quantity is
the raw parseInt result (may be NaN), the price the server price. -/
structure ILine where
  productId : String
  name : String
  price : Int
  quantity : Option Int
  customization : Option String
deriving DecidableEq

/-- The order document persisted by verify-payment of src/index.js. -/
structure IOrder where
  userId : String
  items : List ILine
  total : Option Int
  status : String
  rzpOrderId : String
  rzpPaymentId : String
  rzpSignature : String
  verified : Bool
deriving DecidableEq

inductive IVResp where
  | unauthorized
  | missingPaymentDetails
  | missingOrderData
  | invalidSignature
  | productNotFound (id : String)
  | success
deriving DecidableEq

/-- Result of the verify-payment item loop of src/index.js: either a
product-not-found failure (carrying the store as of the failure, since
earlier iterations already wrote inventory), or the final store, line
items and accumulated total. -/
inductive IVLoopRes where
  | fail (id : String) (store : Store)
  | done (store : Store) (lines : List ILine) (total : Option Int)
deriving DecidableEq

def IVLoopRes.store : IVLoopRes → Store
  | .fail _ s => s
  | .done s _ _ => s

/-- The per-item loop of verify-payment in src/index.js, lines 545–580:
fail on a missing product, otherwise push a line item with the server
price, add price × quantity to the running total, and, when stock is
tracked, write inventory − quantity back only when that difference is
non-negative (the write is skipped otherwise).  No other check is made. -/
def ivItems (now : Nat) (s : Store) : List IItem → List ILine → Option Int → IVLoopRes
  | [], acc, total => .done s acc total
  | it :: rest, acc, total =>
    match getProduct s it.productId with
    | none => .fail it.productId s
    | some p =>
      let line : ILine := ⟨it.productId, p.name, p.price, it.quantity, it.customization⟩
      let total2 := jsAdd total (jsMul (some p.price) it.quantity)
      let s2 :=
        match p.inventory with
        | some inv =>
          match jsSub (some inv) it.quantity with
          | some newInv => if 0 ≤ newInv then setInventory now s it.productId newInv else s
          | none => s
        | none => s
      ivItems now s2 rest (acc ++ [line]) total2

structure IVOut where
  resp : IVResp
  store : Store
  orders : List IOrder
deriving DecidableEq

/-- POST /api/orders/verify-payment of src/index.js, lines 494–618:
require auth; reject when any of the three razorpay fields is falsy or
orderData (or its truthy total) is missing; recompute the HMAC-SHA256 hex
digest of "order_id|payment_id" under the key secret and reject on
mismatch; then run the item loop and persist the order with the
server-computed total and full payment metadata. -/
def verifyPayment (hmacHex : String → String → String) (secret : String) (now : Nat)
    (s : Store) (uid : Option String) (oid pid sig : String)
    (orderData : Option (List IItem × Int)) : IVOut :=
  match uid with
  | none => ⟨.unauthorized, s, []⟩
  | some u =>
    if oid = "" ∨ pid = "" ∨ sig = "" then ⟨.missingPaymentDetails, s, []⟩
    else
      match orderData with
      | none => ⟨.missingOrderData, s, []⟩
      | some (items, clientTotal) =>
        if clientTotal = 0 then ⟨.missingOrderData, s, []⟩
        else if hmacHex secret (oid ++ "|" ++ pid) ≠ sig then ⟨.invalidSignature, s, []⟩
        else
          match ivItems now s items [] (some 0) with
          | .fail id sFail => ⟨.productNotFound id, sFail, []⟩
          | .done sDone lines calcTotal =>
            ⟨.success, sDone, [⟨u, lines, calcTotal, "pending", oid, pid, sig, true⟩]⟩

/-- A client cart entry as the part_000/part_001/part_002 checkout
handlers read it: the quantity is used raw (no parseInt), so it is the
client-submitted number. -/
structure PItem where
  productId : String
  quantity : Int
  customization : Option String
deriving DecidableEq

/-- A line item built by the part_000/part_002 checkout loops, priced
from the product document. -/
structure PLine where
  productId : String
  name : String
  price : Int
  quantity : Int
  customization : Option String
deriving DecidableEq

/-- An order document persisted by the part_000/part_002 checkout
handlers (verify-payment and place-cod share the shape). -/
structure P0Order where
  userId : String
  items : List PLine
  total : Int
  shippingAddress : Option String
  status : String
  paymentMethod : Option String
  paymentStatus : Option String
  rzpOrderId : Option String
  rzpPaymentId : Option String
deriving DecidableEq

inductive P0Resp where
  | unauthorized
  | invalidSignature
  | invalidPayload
  | success
deriving DecidableEq

structure P0Out where
  resp : P0Resp
  store : Store
  orders : List P0Order
deriving DecidableEq

/-- The shared item/inventory loop of part_000 verify-payment
(lines 289–313) and place-cod (lines 349–373), identical in part_002:
a missing product is silently skipped; an existing product contributes a
server-priced line item, and when its stock is tracked the handler writes
back Math.max(0, inventory − quantity) with a fresh updatedAt. -/
def p0AdjustLoop (now : Nat) (s : Store) : List PItem → List PLine → Store × List PLine
  | [], acc => (s, acc)
  | it :: rest, acc =>
    match getProduct s it.productId with
    | none => p0AdjustLoop now s rest acc
    | some p =>
      let line : PLine := ⟨it.productId, p.name, p.price, it.quantity, it.customization⟩
      let s2 :=
        match p.inventory with
        | some inv => setInventory now s it.productId (max 0 (inv - it.quantity))
        | none => s
      p0AdjustLoop now s2 rest (acc ++ [line])

/-- POST /api/orders/verify-payment of part_000 (lines 270–336; part_002
is identical): require auth, check the HMAC signature, run the shared
loop, then persist the order with the CLIENT-SUBMITTED orderData.total. -/
def p0VerifyPayment (hmacHex : String → String → String) (secret : String) (now : Nat)
    (s : Store) (uid : Option String) (oid pid sig : String)
    (items : List PItem) (clientTotal : Int) (shipping : Option String) : P0Out :=
  match uid with
  | none => ⟨.unauthorized, s, []⟩
  | some u =>
    if hmacHex secret (oid ++ "|" ++ pid) ≠ sig then ⟨.invalidSignature, s, []⟩
    else
      let r := p0AdjustLoop now s items []
      ⟨.success, r.1,
        [⟨u, r.2, clientTotal, shipping, "pending", none, none, some oid, some pid⟩]⟩

/-- POST /api/orders/place-cod of part_000 (lines 339–393; part_002 is
identical): require auth and a truthy items/total/shippingAddress
payload, run the shared loop, persist the order with paymentMethod "cod",
paymentStatus "awaiting_collection" and the CLIENT-SUBMITTED total. -/
def p0PlaceCod (now : Nat) (s : Store) (uid : Option String)
    (items : List PItem) (total : Int) (shipping : String) : P0Out :=
  match uid with
  | none => ⟨.unauthorized, s, []⟩
  | some u =>
    if items = [] ∨ total = 0 ∨ shipping = "" then ⟨.invalidPayload, s, []⟩
    else
      let r := p0AdjustLoop now s items []
      ⟨.success, r.1,
        [⟨u, r.2, total, some shipping, "pending", some "cod",
          some "awaiting_collection", none, none⟩]⟩

/-- Responses of the part_000/part_001 create-payment handlers. -/
inductive PCPResp where
  | unauthorized
  | missingData
  | gatewayError
  | ok (amount : Int) (key : String)
deriving DecidableEq

structure PCPOut where
  resp : PCPResp
  store : Store
  orders : List P0Order
deriving DecidableEq

/-- POST /api/orders/create-payment of part_000 (lines 243–268; part_002
is identical): require auth and truthy items/total, then create the
gateway order for Math.round(total × 100) paise.  No product lookup, no
recomputation of the total, no persistence. -/
def p0CreatePaymentResp (gatewayOk : Bool) (key : String)
    (uid : Option String) (items : List PItem) (total : Int) : PCPResp :=
  match uid with
  | none => .unauthorized
  | some _ =>
    if items = [] ∨ total = 0 then .missingData
    else if gatewayOk then .ok (total * 100) key
    else .gatewayError

/-- The full effect of a part_000/part_002 create-payment call: no
database write on any path. -/
def p0CreatePayment (gatewayOk : Bool) (key : String) (s : Store)
    (uid : Option String) (items : List PItem) (total : Int) : PCPOut :=
  ⟨p0CreatePaymentResp gatewayOk key uid items total, s, []⟩

/-- POST /api/orders/create-payment of part_001 (lines 212–229): require
auth, then create the gateway order for Math.round(total × 100) paise.
No payload validation, no persistence. -/
def p1CreatePaymentResp (gatewayOk : Bool) (key : String)
    (uid : Option String) (total : Int) : PCPResp :=
  match uid with
  | none => .unauthorized
  | some _ =>
    if gatewayOk then .ok (total * 100) key
    else .gatewayError

/-- The full effect of a part_001 create-payment call: no database write
on any path. -/
def p1CreatePayment (gatewayOk : Bool) (key : String) (s : Store)
    (uid : Option String) (total : Int) : PCPOut :=
  ⟨p1CreatePaymentResp gatewayOk key uid total, s, []⟩

/-- An order document persisted by the part_001 checkout handlers; its
item list is the CLIENT-SUBMITTED items (verify-payment spreads the raw
orderData into the document; place-cod stores `items` as received). -/
structure P1Order where
  userId : String
  clientItems : List PItem
  total : Int
  shippingAddress : String
  status : String
  paymentMethod : Option String
  paymentId : Option String
deriving DecidableEq

inductive P1Resp where
  | invalidSignature
  | success
deriving DecidableEq

structure P1Out where
  resp : P1Resp
  store : Store
  orders : List P1Order
deriving DecidableEq

/-- The inventory loop of the part_001 checkout handlers (verify-payment
lines 246–255, place-cod lines 276–285): for each item, when the product
exists and tracks stock, write back Math.max(0, inventory − quantity). -/
def p1AdjustLoop (now : Nat) (s : Store) : List PItem → Store
  | [] => s
  | it :: rest =>
    let s2 :=
      match getProduct s it.productId with
      | some p =>
        match p.inventory with
        | some inv => setInventory now s it.productId (max 0 (inv - it.quantity))
        | none => s
      | none => s
    p1AdjustLoop now s2 rest

/-- POST /api/orders/verify-payment of part_001 (lines 231–269): no auth
check at all; check the HMAC signature, run the inventory loop, persist
the raw client orderData (items, total, shippingAddress) with userId
falling back to "guest". -/
def p1VerifyPayment (hmacHex : String → String → String) (secret : String) (now : Nat)
    (s : Store) (uid : Option String) (oid pid sig : String)
    (items : List PItem) (clientTotal : Int) (shipping : String) : P1Out :=
  if hmacHex secret (oid ++ "|" ++ pid) ≠ sig then ⟨.invalidSignature, s, []⟩
  else
    let s2 := p1AdjustLoop now s items
    ⟨.success, s2,
      [⟨uid.getD "guest", items, clientTotal, shipping, "pending", none, some pid⟩]⟩

/-- POST /api/orders/place-cod of part_001 (lines 271–303): no auth
check and no payload validation; run the inventory loop and persist the
raw client items and total with paymentMethod "cod" and userId falling
back to "guest". -/
def p1PlaceCod (now : Nat) (s : Store) (uid : Option String)
    (items : List PItem) (total : Int) (shipping : String) : P1Out :=
  let s2 := p1AdjustLoop now s items
  ⟨.success, s2,
    [⟨uid.getD "guest", items, total, shipping, "pending", some "cod", none⟩]⟩

/-- The effective limit of GET /api/admin/orders in src/index.js, line
270–271: parseInt the limit query parameter (`none` models NaN, i.e. an
absent or non-numeric parameter); a finite positive value is capped at
200, anything else defaults to 100. -/
def listLimit (limitParam : Option Int) : Int :=
  match limitParam with
  | some n => if 0 < n then min n 200 else 100
  | none => 100

/-- GET /api/admin/orders of src/index.js: the order-by-createdAt query
bounded by `.limit(listLimit p)`, modelled as taking a prefix of the
orders collection. -/
def adminListOrders (orders : List OCOrder) (limitParam : Option Int) : List OCOrder :=
  orders.take (listLimit limitParam).toNat

/-- The server-held unit price of a product id. -/
def priceOf (s : Store) (id : String) : Option Int :=
  (getProduct s id).map Product.price

/-- The line item verify-payment of src/index.js builds for an entry,
priced and named from the store. -/
def resolveI (s : Store) (it : IItem) : ILine :=
  { productId := it.productId
    name := ((getProduct s it.productId).map Product.name).getD ""
    price := (priceOf s it.productId).getD 0
    quantity := it.quantity
    customization := it.customization }

/-- The running total verify-payment of src/index.js accumulates:
Σ (server-held unit price × quantity) over the entries, in JS arithmetic. -/
def itemsTotal (s : Store) (acc : Option Int) (items : List IItem) : Option Int :=
  items.foldl (fun t it => jsAdd t (jsMul (priceOf s it.productId) it.quantity)) acc

theorem samePrices_none {s t : Store} (h : samePrices s t) (id : String) :
    getProduct t id = none ↔ getProduct s id = none := by
  have hm := (h id).1
  constructor
  · intro hh
    rw [hh] at hm
    exact Option.map_eq_none.mp hm.symm
  · intro hh
    rw [hh] at hm
    exact Option.map_eq_none.mp hm
theorem resolveI_congr {s t : Store} (h : samePrices s t) :
    resolveI t = resolveI s := by
  funext it
  obtain ⟨h1, h2, _⟩ := h it.productId
  simp [resolveI, priceOf, h1, h2]

theorem itemsTotal_congr {s t : Store} (h : samePrices s t)
    (acc : Option Int) (items : List IItem) :
    itemsTotal t acc items = itemsTotal s acc items := by
  induction items generalizing acc with
  | nil => rfl
  | cons it rest ih =>
    have h1 := (h it.productId).1
    simp only [itemsTotal, List.foldl_cons]
    rw [show priceOf t it.productId = priceOf s it.productId from h1]
    exact ih _

theorem ivItems_spec (now : Nat) : ∀ (items : List IItem) (s : Store)
    (acc : List ILine) (tot : Option Int),
    samePrices s (ivItems now s items acc tot).store ∧
    ((∀ it ∈ items, (getProduct s it.productId).isSome) →
      ivItems now s items acc tot =
        .done (ivItems now s items acc tot).store
          (acc ++ items.map (resolveI s)) (itemsTotal s tot items)) ∧
    (∀ sd lines t2, ivItems now s items acc tot = .done sd lines t2 →
      ∀ it ∈ items, (getProduct s it.productId).isSome) ∧
    (∀ id sf, ivItems now s items acc tot = .fail id sf →
      ∃ it ∈ items, it.productId = id ∧ getProduct s it.productId = none) := by
  intro items
  induction items with
  | nil =>
    intro s acc tot
    refine ⟨samePrices_refl s, fun _ => ?_, ?_, ?_⟩
    · simp [ivItems, IVLoopRes.store, itemsTotal]
    · intro sd lines t2 _
      intro it hit
      simp at hit
    · intro id sf h
      simp [ivItems] at h
  | cons it rest ih =>
    intro s acc tot
    cases hget : getProduct s it.productId with
    | none =>
      have hres : ivItems now s (it :: rest) acc tot = .fail it.productId s := by
        simp [ivItems, hget]
      refine ⟨?_, ?_, ?_, ?_⟩
      · rw [hres]; exact samePrices_refl s
      · intro hall
        have := hall it (List.mem_cons_self _ _)
        simp [hget] at this
      · intro sd lines t2 h
        rw [hres] at h
        cases h
      · intro id sf h
        rw [hres] at h
        cases h
        exact ⟨it, List.mem_cons_self _ _, rfl, hget⟩
    | some p =>
      have hres : ivItems now s (it :: rest) acc tot =
          ivItems now
            (match p.inventory with
             | some inv =>
               match jsSub (some inv) it.quantity with
               | some newInv =>
                 if 0 ≤ newInv then setInventory now s it.productId newInv else s
               | none => s
             | none => s)
            rest (acc ++ [⟨it.productId, p.name, p.price, it.quantity, it.customization⟩])
            (jsAdd tot (jsMul (some p.price) it.quantity)) := by
        simp [ivItems, hget]
      set s2 : Store :=
        (match p.inventory with
         | some inv =>
           match jsSub (some inv) it.quantity with
           | some newInv =>
             if 0 ≤ newInv then setInventory now s it.productId newInv else s
           | none => s
         | none => s) with hs2
      have hsp : samePrices s s2 := by
        rw [hs2]
        cases p.inventory with
        | none => exact samePrices_refl s
        | some inv =>
          cases hq : it.quantity with
          | none => simp [jsSub]; exact samePrices_refl s
          | some q =>
            simp only [jsSub]
            by_cases hnn : (0 : Int) ≤ inv - q
            · simpa [hnn] using samePrices_setInventory now s it.productId (inv - q)
            · simpa [hnn] using samePrices_refl s
      obtain ⟨ih1, ih2, ih3, ih4⟩ :=
        ih s2 (acc ++ [⟨it.productId, p.name, p.price, it.quantity, it.customization⟩])
          (jsAdd tot (jsMul (some p.price) it.quantity))
      refine ⟨?_, ?_, ?_, ?_⟩
      · rw [hres]
        exact samePrices_trans hsp ih1
      · intro hall
        have hrest : ∀ x ∈ rest, (getProduct s2 x.productId).isSome := by
          intro x hx
          rw [samePrices_isSome hsp]
          exact hall x (List.mem_cons_of_mem _ hx)
        rw [hres, ih2 hrest]
        have hmap : List.map (resolveI s2) rest = List.map (resolveI s) rest := by
          rw [resolveI_congr hsp]
        have hline : resolveI s it =
            ⟨it.productId, p.name, p.price, it.quantity, it.customization⟩ := by
          simp [resolveI, priceOf, hget]
        have htot : itemsTotal s2 (jsAdd tot (jsMul (some p.price) it.quantity)) rest =
            itemsTotal s tot (it :: rest) := by
          rw [itemsTotal_congr hsp]
          simp only [itemsTotal, List.foldl_cons]
          rw [show priceOf s it.productId = some p.price by simp [priceOf, hget]]
        rw [hmap, htot, List.map_cons, hline]
        simp [IVLoopRes.store]
      · intro sd lines t2 h
        rw [hres] at h
        intro x hx
        rcases List.mem_cons.mp hx with h1 | h2
        · subst h1; simp [hget]
        · have := ih3 sd lines t2 h x h2
          rwa [samePrices_isSome hsp] at this
      · intro id sf h
        rw [hres] at h
        obtain ⟨x, hx, hid, hnone⟩ := ih4 id sf h
        exact ⟨x, List.mem_cons_of_mem _ hx, hid,
          (samePrices_none hsp x.productId).mp hnone⟩

theorem ivItems_nonneg (now : Nat) : ∀ (items : List IItem) (s : Store)
    (acc : List ILine) (tot : Option Int), storeNonneg s →
    storeNonneg (ivItems now s items acc tot).store := by
  intro items
  induction items with
  | nil =>
    intro s acc tot h
    simpa [ivItems, IVLoopRes.store] using h
  | cons it rest ih =>
    intro s acc tot h
    cases hget : getProduct s it.productId with
    | none => simpa [ivItems, hget, IVLoopRes.store] using h
    | some p =>
      simp only [ivItems, hget]
      apply ih
      cases p.inventory with
      | none => exact h
      | some inv =>
        cases hq : it.quantity with
        | none => simpa [jsSub] using h
        | some q =>
          simp only [jsSub]
          by_cases hnn : (0 : Int) ≤ inv - q
          · simpa [hnn] using storeNonneg_setInventory h now it.productId hnn
          · simpa [hnn] using h

theorem p0AdjustLoop_nonneg (now : Nat) : ∀ (items : List PItem) (s : Store)
    (acc : List PLine), storeNonneg s →
    storeNonneg (p0AdjustLoop now s items acc).1 := by
  intro items
  induction items with
  | nil => intro s acc h; simpa [p0AdjustLoop] using h
  | cons it rest ih =>
    intro s acc h
    cases hget : getProduct s it.productId with
    | none => simpa [p0AdjustLoop, hget] using ih s acc h
    | some p =>
      simp only [p0AdjustLoop, hget]
      apply ih
      cases p.inventory with
      | none => exact h
      | some inv =>
        exact storeNonneg_setInventory h now it.productId (le_max_left 0 _)

theorem p1AdjustLoop_nonneg (now : Nat) : ∀ (items : List PItem) (s : Store),
    storeNonneg s → storeNonneg (p1AdjustLoop now s items) := by
  intro items
  induction items with
  | nil => intro s h; simpa [p1AdjustLoop] using h
  | cons it rest ih =>
    intro s h
    cases hget : getProduct s it.productId with
    | none => simpa [p1AdjustLoop, hget] using ih s h
    | some p =>
      simp only [p1AdjustLoop, hget]
      apply ih
      cases p.inventory with
      | none => exact h
      | some inv =>
        exact storeNonneg_setInventory h now it.productId (le_max_left 0 _)

/-- A concrete stand-in for the HMAC-SHA256 hex function, used only to
instantiate witnesses and counterexamples (the claim theorems quantify
over the HMAC function). -/
def demoHmac (k m : String) : String := k ++ "." ++ m

/-- A concrete products collection for witnesses and counterexamples:
p1 active with stock 10, p2 inactive, p3 active with stock 1. -/
def demoStore : Store :=
  [("p1", ⟨"Candle", 500, true, some 10, 0⟩),
   ("p2", ⟨"Lamp", 200, false, some 5, 0⟩),
   ("p3", ⟨"Wax", 300, true, some 1, 0⟩)]

/-- Claim C1: a payment-completion claim submitted to verify-payment
(src/index.js, with the three payment fields and orderData present; the
same check is the first step of part_001's verify-payment) is rejected
with the invalid-signature error — the store unchanged, no order
created — exactly when the submitted signature differs from the hex HMAC
of "order_id|payment_id" under the shared secret; a matching signature
passes verification. -/
theorem C1_signature_gate
    (hmacHex : String → String → String) (secret : String) (now : Nat)
    (s : Store) (u oid pid sig : String) (items : List IItem) (clientTotal : Int)
    (pUid : Option String) (pItems : List PItem) (pTotal : Int) (pShip : String)
    (hoid : oid ≠ "") (hpid : pid ≠ "") (hsig : sig ≠ "") (ht : clientTotal ≠ 0) :
    (((verifyPayment hmacHex secret now s (some u) oid pid sig
        (some (items, clientTotal))).resp = .invalidSignature ↔
      hmacHex secret (oid ++ "|" ++ pid) ≠ sig) ∧
     (hmacHex secret (oid ++ "|" ++ pid) ≠ sig →
      verifyPayment hmacHex secret now s (some u) oid pid sig
        (some (items, clientTotal)) = ⟨.invalidSignature, s, []⟩)) ∧
    (((p1VerifyPayment hmacHex secret now s pUid oid pid sig pItems pTotal pShip).resp =
        .invalidSignature ↔ hmacHex secret (oid ++ "|" ++ pid) ≠ sig) ∧
     (hmacHex secret (oid ++ "|" ++ pid) ≠ sig →
      p1VerifyPayment hmacHex secret now s pUid oid pid sig pItems pTotal pShip =
        ⟨.invalidSignature, s, []⟩) ∧
     (hmacHex secret (oid ++ "|" ++ pid) = sig →
      (p1VerifyPayment hmacHex secret now s pUid oid pid sig pItems pTotal pShip).resp =
        .success)) := by
  by_cases hm : hmacHex secret (oid ++ "|" ++ pid) = sig
  · refine ⟨⟨?_, ?_⟩, ?_, ?_, ?_⟩
    · cases hiv : ivItems now s items [] (some 0) with
      | fail id sf => simp [verifyPayment, hoid, hpid, hsig, ht, hm, hiv]
      | done sd l t2 => simp [verifyPayment, hoid, hpid, hsig, ht, hm, hiv]
    · intro hne; exact absurd hm hne
    · simp [p1VerifyPayment, hm]
    · intro hne; exact absurd hm hne
    · intro _; simp [p1VerifyPayment, hm]
  · refine ⟨⟨?_, ?_⟩, ?_, ?_, ?_⟩
    · simp [verifyPayment, hoid, hpid, hsig, ht, hm]
    · intro _; simp [verifyPayment, hoid, hpid, hsig, ht, hm]
    · simp [p1VerifyPayment, hm]
    · intro _; simp [p1VerifyPayment, hm]
    · intro he; exact absurd he hm

theorem C1_signature_gate_witness :
    (verifyPayment demoHmac "k" 0 demoStore (some "u") "o" "p" "x"
        (some ([⟨"p1", some 2, none⟩], 1000))).resp = IVResp.invalidSignature := by
  have h := C1_signature_gate demoHmac "k" 0 demoStore "u" "o" "p" "x"
      [⟨"p1", some 2, none⟩] 1000 (some "v") [] 5 "addr"
      (by decide) (by decide) (by decide) (by decide)
  exact h.1.1.mpr (by decide)

/-- Claim C4: the pricing and availability validator (the shared
per-item loop of POST /api/orders, src/index.js 140–159, and POST
/api/orders/create-payment, src/index.js 387–429) succeeds exactly on
carts whose every entry resolves to an existing active product with a
positive parsed quantity and, when stock is tracked, stock at least the
quantity; on success it returns the server-priced line items and total
Σ(server unit price × quantity), and each error kind is returned only
when the corresponding defect is present (the first failing check of the
first failing entry wins). -/
theorem C4_validator (s : Store) (items : List CartItem) :
    ((∀ it ∈ items, itemOkB s it = true) →
      validateCart s items = .ok (items.map (resolveV s)) (cartSum s items)) ∧
    (∀ ls t, validateCart s items = .ok ls t → ∀ it ∈ items, itemOkB s it = true) ∧
    (¬ (∀ it ∈ items, itemOkB s it = true) → ∃ e, validateCart s items = .err e) ∧
    (∀ id, validateCart s items = .err (.productMissing id) →
      ∃ it ∈ items, it.productId = id ∧ getProduct s it.productId = none) ∧
    (∀ id, validateCart s items = .err (.productInactive id) →
      ∃ it ∈ items, it.productId = id ∧
        ∃ p, getProduct s it.productId = some p ∧ p.isActive = false) ∧
    (validateCart s items = .err .invalidQuantity →
      ∃ it ∈ items, ∀ q : Int, it.quantity = some q → q ≤ 0) ∧
    (∀ nm, validateCart s items = .err (.insufficientInventory nm) →
      ∃ it ∈ items, ∃ p q inv, getProduct s it.productId = some p ∧ p.name = nm ∧
        it.quantity = some q ∧ p.inventory = some inv ∧ inv < q) := by
  obtain ⟨h1, h2, h3, h4, h5, h6⟩ := validateCartAux_spec s items [] 0
  refine ⟨?_, ?_, ?_, h3, h4, h5, h6⟩
  · intro hall
    have := h1 hall
    simpa [validateCart] using this
  · intro ls t h
    exact h2 ls t h
  · intro hnot
    cases hres : validateCart s items with
    | ok ls t => exact absurd (h2 ls t hres) hnot
    | err e => exact ⟨e, rfl⟩

theorem C4_validator_witness :
    validateCart demoStore [⟨"p1", some 2, none⟩] =
      VRes.ok [⟨"p1", "Candle", 500, 2, none⟩] 1000 := by
  have h := (C4_validator demoStore [⟨"p1", some 2, none⟩]).1 (by decide)
  rw [h]
  decide

/-- Claim C5: starting from a store in which every tracked stock is
non-negative, every checkout operation that performs inventory
decrements — verify-payment of src/index.js, verify-payment and
place-cod of part_000/part_002, and verify-payment and place-cod of
part_001 — leaves every tracked stock non-negative: the index.js step
skips any write that would go below zero and the other variants clamp
the written value at zero. -/
theorem C5_stock_floor
    (hmacHex : String → String → String) (secret : String) (now : Nat)
    (s : Store) (uid : Option String) (oid pid sig : String)
    (iOrderData : Option (List IItem × Int))
    (pItems : List PItem) (pTotal : Int) (pShipOpt : Option String) (pShip : String)
    (hs : storeNonneg s) :
    storeNonneg (verifyPayment hmacHex secret now s uid oid pid sig iOrderData).store ∧
    storeNonneg (p0VerifyPayment hmacHex secret now s uid oid pid sig
      pItems pTotal pShipOpt).store ∧
    storeNonneg (p0PlaceCod now s uid pItems pTotal pShip).store ∧
    storeNonneg (p1VerifyPayment hmacHex secret now s uid oid pid sig
      pItems pTotal pShip).store ∧
    storeNonneg (p1PlaceCod now s uid pItems pTotal pShip).store := by
  refine ⟨?_, ?_, ?_, ?_, ?_⟩
  · cases uid with
    | none => simpa [verifyPayment] using hs
    | some u =>
      by_cases h1 : oid = "" ∨ pid = "" ∨ sig = ""
      · simpa [verifyPayment, h1] using hs
      · cases iOrderData with
        | none => simpa [verifyPayment, h1] using hs
        | some pr =>
          obtain ⟨items, ct⟩ := pr
          by_cases h2 : ct = 0
          · simpa [verifyPayment, h1, h2] using hs
          · by_cases h3 : hmacHex secret (oid ++ "|" ++ pid) = sig
            · cases hiv : ivItems now s items [] (some 0) with
              | fail id sf =>
                have := ivItems_nonneg now items s [] (some 0) hs
                rw [hiv] at this
                simpa [verifyPayment, h1, h2, h3, hiv, IVLoopRes.store] using this
              | done sd l t2 =>
                have := ivItems_nonneg now items s [] (some 0) hs
                rw [hiv] at this
                simpa [verifyPayment, h1, h2, h3, hiv, IVLoopRes.store] using this
            · simpa [verifyPayment, h1, h2, h3] using hs
  · cases uid with
    | none => simpa [p0VerifyPayment] using hs
    | some u =>
      by_cases h3 : hmacHex secret (oid ++ "|" ++ pid) = sig
      · simpa [p0VerifyPayment, h3] using p0AdjustLoop_nonneg now pItems s [] hs
      · simpa [p0VerifyPayment, h3] using hs
  · cases uid with
    | none => simpa [p0PlaceCod] using hs
    | some u =>
      by_cases h4 : pItems = [] ∨ pTotal = 0 ∨ pShip = ""
      · simpa [p0PlaceCod, h4] using hs
      · simpa [p0PlaceCod, h4] using p0AdjustLoop_nonneg now pItems s [] hs
  · by_cases h3 : hmacHex secret (oid ++ "|" ++ pid) = sig
    · simpa [p1VerifyPayment, h3] using p1AdjustLoop_nonneg now pItems s hs
    · simpa [p1VerifyPayment, h3] using hs
  · simpa [p1PlaceCod] using p1AdjustLoop_nonneg now pItems s hs

theorem C5_stock_floor_witness :
    storeNonneg (p0PlaceCod 1 demoStore (some "u") [⟨"p1", 3, none⟩] 1500 "addr").store ∧
    storeNonneg (verifyPayment demoHmac "k" 1 demoStore (some "u") "o" "p" "k.o|p"
      (some ([⟨"p3", some 2, none⟩], 600))).store := by
  have h := C5_stock_floor demoHmac "k" 1 demoStore (some "u") "o" "p" "k.o|p"
      (some ([⟨"p3", some 2, none⟩], 600)) [⟨"p1", 3, none⟩] 1500 (some "addr") "addr"
      (by unfold storeNonneg; decide)
  exact ⟨h.2.2.1, h.1⟩

/-- Claim C10: for GET /api/admin/orders of src/index.js, the number of
returned orders is bounded by min(limit, 200) whenever the limit query
parameter parses to a positive integer, and the effective limit defaults
to 100 when the parameter is absent or non-numeric (parseInt yields NaN,
modelled as `none`), zero, or negative; in every case the returned list
is bounded by the effective limit. -/
theorem C10_admin_list_limit (orders : List OCOrder) (p : Option Int) :
    (∀ n : Int, p = some n → 0 < n →
      listLimit p = min n 200 ∧
      (adminListOrders orders p).length ≤ (min n 200).toNat) ∧
    (p = none → listLimit p = 100) ∧
    (∀ n : Int, p = some n → n ≤ 0 → listLimit p = 100) ∧
    (adminListOrders orders p).length ≤ (listLimit p).toNat := by
  refine ⟨?_, ?_, ?_, ?_⟩
  · intro n hp hn
    subst hp
    refine ⟨by simp [listLimit, hn], ?_⟩
    have : listLimit (some n) = min n 200 := by simp [listLimit, hn]
    calc (adminListOrders orders (some n)).length
        ≤ (listLimit (some n)).toNat := List.length_take_le _ _
      _ = (min n 200).toNat := by rw [this]
  · intro hp; subst hp; rfl
  · intro n hp hn
    subst hp
    simp [listLimit, not_lt.mpr hn]
  · exact List.length_take_le _ _

theorem C10_admin_list_limit_witness :
    listLimit (some 500) = 200 ∧
    (adminListOrders [] (some 500)).length ≤ (200 : Int).toNat := by
  have h := (C10_admin_list_limit [] (some 500)).1 500 rfl (by decide)
  exact ⟨by rw [h.1]; decide, by simpa using h.2⟩

/-- Claim C2 counterexample: in part_000's verify-payment (part_002 is
identical), a cart of two units of the 500-unit product with a
client-declared total of 1 passes signature verification and persists an
order whose total field is the client's 1, not the server-side sum 1000. -/
theorem C2_counterexample :
    (p0VerifyPayment demoHmac "k" 1 demoStore (some "u") "o" "p" "k.o|p"
        [⟨"p1", 2, none⟩] 1 (some "addr")).resp = P0Resp.success ∧
    (p0VerifyPayment demoHmac "k" 1 demoStore (some "u") "o" "p" "k.o|p"
        [⟨"p1", 2, none⟩] 1 (some "addr")).orders =
      [⟨"u", [⟨"p1", "Candle", 500, 2, none⟩], 1, some "addr", "pending",
        none, none, some "o", some "p"⟩] ∧
    (500 * 2 : Int) = 1000 ∧ (1 : Int) ≠ 1000 := by
  decide

/-- Claim C2 amended: in verify-payment of src/index.js the persisted
order total is the server-recomputed Σ(server unit price × quantity) and
is independent of the client-declared total, and each persisted line item
carries the server-held price of validation time; in the
part_000/part_001/part_002 checkout handlers, however, the persisted
order total is the client-submitted total (part_000/part_002 still price
the individual line items from the server). -/
theorem C2_amended
    (hmacHex : String → String → String) (secret : String) (now : Nat)
    (s : Store) (u oid pid sig : String) (items : List IItem) (t t2 : Int)
    (pItems : List PItem) (pTotal : Int) (pShipOpt : Option String)
    (hoid : oid ≠ "") (hpid : pid ≠ "") (hsig : sig ≠ "")
    (ht : t ≠ 0) (ht2 : t2 ≠ 0) :
    (verifyPayment hmacHex secret now s (some u) oid pid sig (some (items, t)) =
      verifyPayment hmacHex secret now s (some u) oid pid sig (some (items, t2))) ∧
    ((verifyPayment hmacHex secret now s (some u) oid pid sig
        (some (items, t))).resp = .success →
      (verifyPayment hmacHex secret now s (some u) oid pid sig
        (some (items, t))).orders =
        [⟨u, items.map (resolveI s), itemsTotal s (some 0) items,
          "pending", oid, pid, sig, true⟩]) ∧
    ((p0VerifyPayment hmacHex secret now s (some u) oid pid sig
        pItems pTotal pShipOpt).resp = .success →
      ∃ o, (p0VerifyPayment hmacHex secret now s (some u) oid pid sig
        pItems pTotal pShipOpt).orders = [o] ∧ o.total = pTotal) := by
  refine ⟨?_, ?_, ?_⟩
  · simp [verifyPayment, hoid, hpid, hsig, ht, ht2]
  · intro hsucc
    by_cases hm : hmacHex secret (oid ++ "|" ++ pid) = sig
    · obtain ⟨-, hiv2, hiv3, -⟩ := ivItems_spec now items s [] (some 0)
      cases hiv : ivItems now s items [] (some 0) with
      | fail id sf =>
        simp [verifyPayment, hoid, hpid, hsig, ht, hm, hiv] at hsucc
      | done sd lines tcalc =>
        have hall := hiv3 sd lines tcalc hiv
        have hdone := hiv2 hall
        rw [hiv] at hdone
        simp [IVLoopRes.store] at hdone
        obtain ⟨hlines, htot⟩ := hdone
        simp [verifyPayment, hoid, hpid, hsig, ht, hm, hiv, hlines, htot]
    · simp [verifyPayment, hoid, hpid, hsig, ht, hm] at hsucc
  · intro hsucc
    by_cases hm : hmacHex secret (oid ++ "|" ++ pid) = sig
    · refine ⟨⟨u, (p0AdjustLoop now s pItems []).2, pTotal, pShipOpt, "pending",
        none, none, some oid, some pid⟩, ?_, rfl⟩
      simp [p0VerifyPayment, hm]
    · simp [p0VerifyPayment, hm] at hsucc

theorem C2_amended_witness :
    (verifyPayment demoHmac "k" 2 demoStore (some "u") "o" "p" "k.o|p"
        (some ([⟨"p1", some 2, none⟩], 777))).orders =
      [⟨"u", [⟨"p1", "Candle", 500, some 2, none⟩], some 1000, "pending",
        "o", "p", "k.o|p", true⟩] := by
  have h := (C2_amended demoHmac "k" 2 demoStore "u" "o" "p" "k.o|p"
      [⟨"p1", some 2, none⟩] 777 888 [] 0 none
      (by decide) (by decide) (by decide) (by decide) (by decide)).2.1 (by decide)
  rw [h]
  decide

/-- Claim C3 counterexample: verify-payment of src/index.js does not
re-apply the full pre-payment validation: a cart holding one unit of the
inactive product p2 checks out successfully, and a cart of (p1 × 2,
unknown id) fails product-not-found only after p1's inventory write has
already happened, so the failing checkout does not leave the store
unchanged. -/
theorem C3_counterexample :
    ((verifyPayment demoHmac "k" 3 demoStore (some "u") "o" "p" "k.o|p"
        (some ([⟨"p2", some 1, none⟩], 200))).resp = IVResp.success ∧
     (getProduct demoStore "p2").map Product.isActive = some false) ∧
    ((verifyPayment demoHmac "k" 3 demoStore (some "u") "o" "p" "k.o|p"
        (some ([⟨"p1", some 2, none⟩, ⟨"nope", some 1, none⟩], 1000))).resp =
      IVResp.productNotFound "nope" ∧
     (verifyPayment demoHmac "k" 3 demoStore (some "u") "o" "p" "k.o|p"
        (some ([⟨"p1", some 2, none⟩, ⟨"nope", some 1, none⟩], 1000))).store ≠
      demoStore) := by
  decide

/-- Claim C3 amended: verify-payment of src/index.js re-checks only
product existence before persisting: for a well-formed authenticated
request whose signature verifies, the checkout succeeds iff every cart
entry's product id resolves (the active flag, quantity validity and
stock sufficiency are not re-checked), and on any non-success response
no order document is persisted — though inventory writes made for
earlier items survive a later product-not-found failure. -/
theorem C3_amended
    (hmacHex : String → String → String) (secret : String) (now : Nat)
    (s : Store) (u oid pid sig : String) (items : List IItem) (t : Int)
    (hoid : oid ≠ "") (hpid : pid ≠ "") (hsig : sig ≠ "") (ht : t ≠ 0)
    (hm : hmacHex secret (oid ++ "|" ++ pid) = sig) :
    ((verifyPayment hmacHex secret now s (some u) oid pid sig
        (some (items, t))).resp = .success ↔
      ∀ it ∈ items, (getProduct s it.productId).isSome) ∧
    ((verifyPayment hmacHex secret now s (some u) oid pid sig
        (some (items, t))).resp ≠ .success →
      (verifyPayment hmacHex secret now s (some u) oid pid sig
        (some (items, t))).orders = []) := by
  obtain ⟨-, hiv2, hiv3, -⟩ := ivItems_spec now items s [] (some 0)
  constructor
  · constructor
    · intro hsucc
      cases hiv : ivItems now s items [] (some 0) with
      | fail id sf =>
        simp [verifyPayment, hoid, hpid, hsig, ht, hm, hiv] at hsucc
      | done sd lines tcalc =>
        exact hiv3 sd lines tcalc hiv
    · intro hall
      have hdone := hiv2 hall
      cases hiv : ivItems now s items [] (some 0) with
      | fail id sf => rw [hiv] at hdone; cases hdone
      | done sd lines tcalc =>
        simp [verifyPayment, hoid, hpid, hsig, ht, hm, hiv]
  · intro hne
    cases hiv : ivItems now s items [] (some 0) with
    | fail id sf =>
      simp [verifyPayment, hoid, hpid, hsig, ht, hm, hiv]
    | done sd lines tcalc =>
      exact absurd (by simp [verifyPayment, hoid, hpid, hsig, ht, hm, hiv]) hne

theorem C3_amended_witness :
    (verifyPayment demoHmac "k" 3 demoStore (some "u") "o" "p" "k.o|p"
        (some ([⟨"p2", some 1, none⟩, ⟨"p3", some 9, none⟩], 42))).resp =
      IVResp.success := by
  exact (C3_amended demoHmac "k" 3 demoStore "u" "o" "p" "k.o|p"
      [⟨"p2", some 1, none⟩, ⟨"p3", some 9, none⟩] 42
      (by decide) (by decide) (by decide) (by decide) (by decide)).1.mpr (by decide)

/-- Claim C6 counterexample: in verify-payment of src/index.js, buying 2
units of product p3 whose tracked stock is 1 does not write
max(0, 1 − 2) = 0 back: the inventory write is skipped entirely (the
stock stays 1 with its old timestamp) while the checkout still succeeds. -/
theorem C6_counterexample :
    (verifyPayment demoHmac "k" 9 demoStore (some "u") "o" "p" "k.o|p"
        (some ([⟨"p3", some 2, none⟩], 300))).resp = IVResp.success ∧
    getProduct (verifyPayment demoHmac "k" 9 demoStore (some "u") "o" "p" "k.o|p"
        (some ([⟨"p3", some 2, none⟩], 300))).store "p3" =
      some ⟨"Wax", 300, true, some 1, 0⟩ ∧
    max 0 (1 - 2 : Int) = 0 ∧ (some (1 : Int) : Option Int) ≠ some 0 := by
  decide

/-- Claim C6 amended: for a line item whose product tracks stock, the
part_000/part_001/part_002 inventory adjuster writes back exactly
max(0, current stock − quantity) together with the fresh updatedAt
timestamp; the src/index.js verify-payment adjuster instead computes
stock − quantity and writes it (with the fresh timestamp) only when it
is non-negative, skipping the write — stock and timestamp unchanged, the
checkout not failed — when the quantity exceeds the stock. -/
theorem C6_amended (now : Nat) (s : Store) (it : PItem) (p : Product) (inv : Int)
    (iit : IItem) (q : Int) (ip : Product) (iinv : Int)
    (hp : getProduct s it.productId = some p) (hinv : p.inventory = some inv)
    (hip : getProduct s iit.productId = some ip) (hiinv : ip.inventory = some iinv)
    (hq : iit.quantity = some q) :
    getProduct (p0AdjustLoop now s [it] []).1 it.productId =
      some { p with inventory := some (max 0 (inv - it.quantity)), updatedAt := now } ∧
    getProduct (p1AdjustLoop now s [it]) it.productId =
      some { p with inventory := some (max 0 (inv - it.quantity)), updatedAt := now } ∧
    (0 ≤ iinv - q →
      getProduct (ivItems now s [iit] [] (some 0)).store iit.productId =
        some { ip with inventory := some (iinv - q), updatedAt := now }) ∧
    (iinv - q < 0 →
      ivItems now s [iit] [] (some 0) =
        .done s [⟨iit.productId, ip.name, ip.price, iit.quantity, iit.customization⟩]
          (jsAdd (some 0) (jsMul (some ip.price) iit.quantity))) := by
  refine ⟨?_, ?_, ?_, ?_⟩
  · simp only [p0AdjustLoop, hp, hinv]
    rw [getProduct_setInventory]
    simp [hp]
  · simp only [p1AdjustLoop, hp, hinv]
    rw [getProduct_setInventory]
    simp [hp]
  · intro hnn
    simp only [ivItems, hip, hiinv, hq, jsSub, if_pos hnn]
    simp only [IVLoopRes.store]
    rw [getProduct_setInventory]
    simp [hip]
  · intro hneg
    have hnn : ¬ (0 : Int) ≤ iinv - q := not_le.mpr hneg
    simp [ivItems, hip, hiinv, hq, jsSub, hnn]

theorem C6_amended_witness :
    getProduct (p0AdjustLoop 7 demoStore [⟨"p3", 2, none⟩] []).1 "p3" =
      some ⟨"Wax", 300, true, some 0, 7⟩ ∧
    ivItems 7 demoStore [⟨"p3", some 2, none⟩] [] (some 0) =
      IVLoopRes.done demoStore [⟨"p3", "Wax", 300, some 2, none⟩] (some 600) := by
  have h := C6_amended 7 demoStore ⟨"p3", 2, none⟩ ⟨"Wax", 300, true, some 1, 0⟩ 1
      ⟨"p3", some 2, none⟩ 2 ⟨"Wax", 300, true, some 1, 0⟩ 1
      (by decide) (by decide) (by decide) (by decide) (by decide)
  refine ⟨?_, ?_⟩
  · rw [h.1]; decide
  · rw [h.2.2.2 (by decide)]; decide

/-- Claim C7 counterexample: create-payment of part_000 (part_002 is
identical) performs no total check at all: with the server-recomputed
total of the cart (one unit of p1) being 500, a declared total of 999999
— beyond the tolerance of 1 by any measure — does not fail with a
total-mismatch error; the gateway order is created for the declared
amount. -/
theorem C7_counterexample :
    validateCart demoStore [⟨"p1", some 1, none⟩] =
      VRes.ok [⟨"p1", "Candle", 500, 1, none⟩] 500 ∧
    (1 : Nat) < ((500 : Int) - 999999).natAbs ∧
    p0CreatePayment true "key" demoStore (some "u") [⟨"p1", 1, none⟩] 999999 =
      ⟨.ok (999999 * 100) "key", demoStore, []⟩ := by
  decide

/-- Claim C7 amended: only create-payment of src/index.js performs the
tolerance check: for an authenticated, configured request with a
positive declared total and a cart the validator prices at ctot, the
handler fails with the total-mismatch error iff |ctot − total| > 1, and
within the tolerance (gateway succeeding) it creates the gateway order
for the declared amount × 100; the part_000/part_002 create-payment
never recomputes or compares the total — its only outcomes are
unauthorized, missing-data, gateway-error, or a gateway order for the
declared amount × 100. -/
theorem C7_amended (gatewayOk : Bool) (key : String) (s : Store) (u : String)
    (items : List CartItem) (t ctot : Int) (lines : List VLine)
    (puid : Option String) (pItems : List PItem) (pTotal : Int)
    (hne : items ≠ []) (hpos : 0 < t)
    (hval : validateCart s items = .ok lines ctot) :
    ((createPayment true gatewayOk key s (some u) items (some t)).resp =
        .totalMismatch ↔ 1 < (ctot - t).natAbs) ∧
    (¬ 1 < (ctot - t).natAbs → gatewayOk = true →
      (createPayment true gatewayOk key s (some u) items (some t)).resp =
        .ok (t * 100) key) ∧
    ((p0CreatePayment gatewayOk key s puid pItems pTotal).resp = .unauthorized ∨
     (p0CreatePayment gatewayOk key s puid pItems pTotal).resp = .missingData ∨
     (p0CreatePayment gatewayOk key s puid pItems pTotal).resp = .gatewayError ∨
     (p0CreatePayment gatewayOk key s puid pItems pTotal).resp =
       .ok (pTotal * 100) key) := by
  have hle : ¬ t ≤ 0 := not_le.mpr hpos
  refine ⟨?_, ?_, ?_⟩
  · by_cases hmm : 1 < (ctot - t).natAbs
    · simp [createPayment, createPaymentResp, hne, hle, hval, hmm]
    · simp [createPayment, createPaymentResp, hne, hle, hval, hmm]
      cases gatewayOk <;> simp
  · intro hmm hg
    subst hg
    simp [createPayment, createPaymentResp, hne, hle, hval, hmm]
  · cases puid with
    | none => left; rfl
    | some v =>
      by_cases hmd : pItems = [] ∨ pTotal = 0
      · right; left
        simp [p0CreatePayment, p0CreatePaymentResp, hmd]
      · cases gatewayOk with
        | false =>
          right; right; left
          simp [p0CreatePayment, p0CreatePaymentResp, hmd]
        | true =>
          right; right; right
          simp [p0CreatePayment, p0CreatePaymentResp, hmd]

theorem C7_amended_witness :
    (createPayment true true "key" demoStore (some "u")
        [⟨"p1", some 1, none⟩] (some 5000)).resp = CPResp.totalMismatch := by
  exact ((C7_amended true "key" demoStore "u" [⟨"p1", some 1, none⟩] 5000 500
      [⟨"p1", "Candle", 500, 1, none⟩] (some "u") [] 0
      (by decide) (by decide) (by decide)).1).mpr (by decide)

/-- Claim C8 counterexample: place-cod of part_001 performs neither the
authentication check nor the payload check: an unauthenticated request
with an empty shipping address succeeds, decrements p1's stock from 10
to 8, and persists an order for user "guest" — instead of failing with
the invalid-payload (or unauthorized) error before any product lookup. -/
theorem C8_counterexample :
    (p1PlaceCod 4 demoStore none [⟨"p1", 2, none⟩] 1000 "").resp = P1Resp.success ∧
    (p1PlaceCod 4 demoStore none [⟨"p1", 2, none⟩] 1000 "").orders =
      [⟨"guest", [⟨"p1", 2, none⟩], 1000, "", "pending", some "cod", none⟩] ∧
    getProduct (p1PlaceCod 4 demoStore none [⟨"p1", 2, none⟩] 1000 "").store "p1" =
      some ⟨"Candle", 500, true, some 8, 4⟩ := by
  decide

/-- Claim C8 amended: place-cod of part_000/part_002 fails unauthorized
for an unauthenticated caller and invalid-payload for an empty shipping
address (or empty items or zero total), in both cases before any product
lookup, with the store unchanged and no order persisted; place-cod of
part_001 performs neither check — every request, including an
unauthenticated one with an empty shipping address, decrements stock and
persists an order whose userId falls back to "guest". -/
theorem C8_amended (now : Nat) (s : Store) (uid : Option String)
    (items : List PItem) (total : Int) (shipping : String) (u : String) :
    p0PlaceCod now s none items total shipping = ⟨.unauthorized, s, []⟩ ∧
    (shipping = "" →
      p0PlaceCod now s (some u) items total shipping = ⟨.invalidPayload, s, []⟩) ∧
    (p1PlaceCod now s uid items total shipping).resp = .success ∧
    (p1PlaceCod now s uid items total shipping).orders =
      [⟨uid.getD "guest", items, total, shipping, "pending", some "cod", none⟩] := by
  refine ⟨rfl, ?_, rfl, rfl⟩
  intro hship
  simp [p0PlaceCod, hship]

theorem C8_amended_witness :
    p0PlaceCod 4 demoStore (some "u") [⟨"p1", 2, none⟩] 1000 "" =
      ⟨P0Resp.invalidPayload, demoStore, []⟩ := by
  exact (C8_amended 4 demoStore (some "u") [⟨"p1", 2, none⟩] 1000 "" "u").2.1 rfl

/-- Claim C9 counterexample: POST /api/orders of src/index.js both
persists an order and creates a payment intent for it: with Stripe
configured and reachable, a valid one-line cart leaves a persisted order
document that was furthermore updated with the created intent id — the
intent-creation step of this route is not persistence-free. -/
theorem C9_counterexample :
    ordersCreate true true "pi1" "cs1" demoStore (some "u") [⟨"p1", some 2, none⟩] =
      ⟨.ok (some "cs1"), demoStore,
        [⟨some "u", [⟨"p1", "Candle", 500, 2, none⟩], 1000, "pending", some "pi1"⟩]⟩ ∧
    ([⟨some "u", [⟨"p1", "Candle", 500, 2, none⟩], 1000, "pending", some "pi1"⟩] :
      List OCOrder) ≠ [] := by
  decide

/-- Claim C9 amended: the Razorpay create-payment endpoints
(src/index.js, part_000/part_002, part_001) persist nothing on any path
— the store is unchanged and no order document is created — and on
success they call the gateway with the declared total × 100 and return
the amount and public key; the legacy POST /api/orders route of
src/index.js, by contrast, persists an order document before creating
its Stripe intent and updates that order with the intent id on success. -/
theorem C9_amended (kc gOk : Bool) (key iid cs : String) (s : Store)
    (uid : Option String) (items : List CartItem) (total : Option Int)
    (u : String) (t ctot : Int) (lines : List VLine) :
    (createPayment kc gOk key s uid items total).store = s ∧
    (createPayment kc gOk key s uid items total).orders = [] ∧
    (p0CreatePayment gOk key s uid ([] : List PItem) t).store = s ∧
    (p0CreatePayment gOk key s uid ([] : List PItem) t).orders = [] ∧
    (p1CreatePayment gOk key s uid t).store = s ∧
    (p1CreatePayment gOk key s uid t).orders = [] ∧
    (uid = some u → kc = true → gOk = true → total = some t → 0 < t →
      items ≠ [] → validateCart s items = .ok lines ctot → ¬ 1 < (ctot - t).natAbs →
      (createPayment kc gOk key s uid items total).resp = .ok (t * 100) key) ∧
    (items ≠ [] → validateCart s items = .ok lines ctot →
      ordersCreate true true iid cs s uid items =
        ⟨.ok (some cs), s, [⟨uid, lines, ctot, "pending", some iid⟩]⟩) := by
  refine ⟨rfl, rfl, rfl, rfl, rfl, rfl, ?_, ?_⟩
  · intro hu hkc hg htot hpos hne hval hmm
    subst hu; subst hkc; subst hg; subst htot
    have hle : ¬ t ≤ 0 := not_le.mpr hpos
    simp [createPayment, createPaymentResp, hne, hle, hval, hmm]
  · intro hne hval
    simp [ordersCreate, hne, hval]

theorem C9_amended_witness :
    (createPayment true true "key" demoStore (some "u")
        [⟨"p1", some 2, none⟩] (some 1000)).resp = CPResp.ok (1000 * 100) "key" := by
  exact (C9_amended true true "key" "pi" "cs" demoStore (some "u")
      [⟨"p1", some 2, none⟩] (some 1000) "u" 1000 1000
      [⟨"p1", "Candle", 500, 2, none⟩]).2.2.2.2.2.2.1
    rfl rfl rfl rfl (by decide) (by decide) (by decide) (by decide)

end Cozy
